import Mathlib

/-!
Verification development for the `lsp_msg` schema-to-code generator.

The definitions below are a shallow embedding of the annotation parser and
shape synthesizer found in `lsp_msg_derive/src/lib.rs`, together with the
serde semantics of the attributes the synthesizer emits, as used by the
message catalog in `src/lib.rs`, `src/general.rs` and `src/structures.rs`.
-/

set_option autoImplicit false

namespace LspMsg

/-- One token of the annotation token stream attached to a type declaration.
The Rust source matches on `TokenTree::Ident` and `TokenTree::Literal` and
ignores every other token kind (`Group`, `Punct`), which we collapse into
`other`. A `literal` carries its raw text, quotes included, exactly as
`Literal::to_string()` produces it. -/
inductive Token where
  | ident (s : String)
  | literal (s : String)
  | other
deriving DecidableEq

/-- The states of the attribute parser state machine (`AttributeParserState`
in the source): scanning for an option name, or awaiting the literal value
of one of the five value-options. -/
inductive AttributeParserState where
  | option
  | dynamicRegistrationValue
  | linkSupportValue
  | markupKindListValue
  | triggersValue
  | resolveProviderValue
deriving DecidableEq

/-- `AttributeParserState::is_searching_for_value`: true in every state other
than `Option`. -/
def AttributeParserState.is_searching_for_value : AttributeParserState → Bool
  | .option => false
  | _ => true

/-- The parsed attribute specification accumulated by `lsp_object`'s token
loop: the `allow_missing` flag (whether `#[serde(default)]` is attached to
the container), the two structural flags, and the five value-options, each
holding the raw literal text of its most recent value. -/
structure AttrSpec where
  allow_missing : Bool := false
  has_document_selector : Bool := false
  has_static_registration : Bool := false
  dynamic_registration : Option String := none
  link_support : Option String := none
  markup_kind_list : Option String := none
  triggers : Option String := none
  resolve_provider : Option String := none
deriving DecidableEq

/-- The empty specification all fields of which are unset, the starting
accumulator of the token loop. -/
def emptyAttrSpec : AttrSpec := {}

/-- One iteration of the token loop of `lsp_object`: given the current state
and accumulated specification, consume one token. An unrecognized identifier
while scanning is the fatal `Unsupported attribute option` panic; every
other unexpected token is ignored, exactly as in the source. -/
def lspObjectStep (st : AttributeParserState) (spec : AttrSpec) (token : Token) :
    Except String (AttributeParserState × AttrSpec) :=
  match st with
  | .option =>
    match token with
    | .ident s =>
      if s = "allow_missing" then .ok (.option, { spec with allow_missing := true })
      else if s = "document_selector" then .ok (.option, { spec with has_document_selector := true })
      else if s = "static_registration" then .ok (.option, { spec with has_static_registration := true })
      else if s = "dynamic_registration" then .ok (.dynamicRegistrationValue, spec)
      else if s = "link_support" then .ok (.linkSupportValue, spec)
      else if s = "markup_kind_list" then .ok (.markupKindListValue, spec)
      else if s = "triggers" then .ok (.triggersValue, spec)
      else if s = "resolve_provider" then .ok (.resolveProviderValue, spec)
      else .error ("Unsupported attribute option: " ++ s)
    | _ => .ok (.option, spec)
  | .dynamicRegistrationValue =>
    match token with
    | .literal l => .ok (.option, { spec with dynamic_registration := some l })
    | _ => .ok (.dynamicRegistrationValue, spec)
  | .linkSupportValue =>
    match token with
    | .literal l => .ok (.option, { spec with link_support := some l })
    | _ => .ok (.linkSupportValue, spec)
  | .markupKindListValue =>
    match token with
    | .literal l => .ok (.option, { spec with markup_kind_list := some l })
    | _ => .ok (.markupKindListValue, spec)
  | .triggersValue =>
    match token with
    | .literal l => .ok (.option, { spec with triggers := some l })
    | _ => .ok (.triggersValue, spec)
  | .resolveProviderValue =>
    match token with
    | .literal l => .ok (.option, { spec with resolve_provider := some l })
    | _ => .ok (.resolveProviderValue, spec)

/-- Run the token loop over a whole token list. -/
def runTokens : AttributeParserState × AttrSpec → List Token →
    Except String (AttributeParserState × AttrSpec)
  | p, [] => .ok p
  | (st, spec), t :: ts =>
    match lspObjectStep st spec t with
    | .error e => .error e
    | .ok p => runTokens p ts

/-- The whole specification-parsing phase of `lsp_object`: run the token loop
from the initial state and empty specification, then fail with the
`Missing a value for an option.` panic when the loop ended while still
searching for a value. -/
def lsp_object_parse (attr : List Token) : Except String AttrSpec :=
  match runTokens (.option, emptyAttrSpec) attr with
  | .error e => .error e
  | .ok (st, spec) =>
    if st.is_searching_for_value then .error "Missing a value for an option."
    else .ok spec

/-- The five value-options of the specification, used to state properties of
duplicate occurrences uniformly. -/
inductive ValueOption where
  | dynamicRegistration
  | linkSupport
  | markupKindList
  | triggers
  | resolveProvider
deriving DecidableEq

/-- The identifier token text that names a value-option. -/
def ValueOption.name : ValueOption → String
  | .dynamicRegistration => "dynamic_registration"
  | .linkSupport => "link_support"
  | .markupKindList => "markup_kind_list"
  | .triggers => "triggers"
  | .resolveProvider => "resolve_provider"

/-- Record a value for a value-option in a specification. -/
def AttrSpec.setVal (s : AttrSpec) (o : ValueOption) (v : String) : AttrSpec :=
  match o with
  | .dynamicRegistration => { s with dynamic_registration := some v }
  | .linkSupport => { s with link_support := some v }
  | .markupKindList => { s with markup_kind_list := some v }
  | .triggers => { s with triggers := some v }
  | .resolveProvider => { s with resolve_provider := some v }

/-- Read the recorded value of a value-option from a specification. -/
def AttrSpec.getVal (s : AttrSpec) (o : ValueOption) : Option String :=
  match o with
  | .dynamicRegistration => s.dynamic_registration
  | .linkSupport => s.link_support
  | .markupKindList => s.markup_kind_list
  | .triggers => s.triggers
  | .resolveProvider => s.resolve_provider

/-- The token shape of one `name = "value"` occurrence of a value-option in
an annotation: the option's identifier, the ignored `=` punctuation, and the
literal value. -/
def occTokens (o : ValueOption) (v : String) : List Token :=
  [Token.ident o.name, Token.other, Token.literal v]

/-! ### The shape synthesizer -/

/-- The slice of Rust's type syntax the synthesizer inspects: a path type is
a list of segment identifiers together with the generic arguments appearing
on the path; every non-path type (`syn::Type`'s other variants) is `other`.
The synthesizer only ever looks at the identifier of the first segment. -/
inductive RustType where
  | path (segments : List String) (args : List RustType)
  | other

/-- The elective-type test of the declared-field loop of `lsp_object`: the
field's type is a path type whose first segment's identifier is exactly
`Elective`. -/
def is_elective (ty : RustType) : Bool :=
  match ty with
  | .path segs _ =>
    match segs.head? with
    | some s => if s = "Elective" then true else false
    | none => false
  | .other => false

/-- A field as declared by the user on the annotated struct: its identifier,
its attributes (doc lines and the like, each kept as its text), and its type. -/
structure DeclaredField where
  name : String
  attrs : List String
  ty : RustType

/-- A field of the synthesized struct: its attributes (for synthesized fields,
the synthesized documentation string), its identifier, its type, and the two
serde directives `default` and `skip_serializing_if = "Elective::is_absent"`
that the synthesizer may attach. -/
structure OutField where
  attrs : List String
  name : String
  ty : RustType
  serde_default : Bool
  serde_skip_if_absent : Bool

/-- `d.retain(|c| c != '"')` from the source: drop every double-quote
character from the raw literal text. -/
def dequote (s : String) : String :=
  String.mk (s.data.filter (fun c => c ≠ '"'))

/-- The field injected by the `document_selector` flag. Its documentation is
the fixed three doc-comment lines of the source. -/
def documentSelectorField : OutField :=
  { attrs := [" Identifies the scope of the registration.", "",
      " If `Option::None`, `DocumentSelector` provided by client will be used."],
    name := "document_selector",
    ty := .path ["Option"] [.path ["char"] []],
    serde_default := false, serde_skip_if_absent := false }

/-- The field injected by the `static_registration` flag: `id : Elective<String>`
with its fixed doc comment and, notably, no serde directives. -/
def staticRegistrationField : OutField :=
  { attrs := [" The id used to register the request."],
    name := "id",
    ty := .path ["Elective"] [.path ["String"] []],
    serde_default := false, serde_skip_if_absent := false }

/-- The field injected by `dynamic_registration = "X"`. -/
def dynamicRegistrationField (d : String) : OutField :=
  { attrs := ["Supports dynamic registration of the " ++ dequote d ++ "."],
    name := "dynamic_registration",
    ty := .path ["bool"] [],
    serde_default := false, serde_skip_if_absent := false }

/-- The field injected by `link_support = "X"`. -/
def linkSupportField (d : String) : OutField :=
  { attrs := ["Supports additional metadata in the form of " ++ dequote d ++ " links."],
    name := "link_support",
    ty := .path ["bool"] [],
    serde_default := false, serde_skip_if_absent := false }

/-- The field injected by `markup_kind_list = "P"`: named `P_format`, typed
`Vec<MarkupKind>`, with the two-paragraph documentation the source formats. -/
def markupKindListField (p : String) : OutField :=
  { attrs := ["The supported `MarkupKind`s for the `" ++ dequote p ++
      "` property.\n\nThe order describes the preferred format."],
    name := dequote p ++ "_format",
    ty := .path ["Vec"] [.path ["MarkupKind"] []],
    serde_default := false, serde_skip_if_absent := false }

/-- The field injected by `triggers = "X"`. -/
def triggersField (d : String) : OutField :=
  { attrs := ["Characters that trigger " ++ dequote d ++ " automatically."],
    name := "trigger_characters",
    ty := .path ["Vec"] [.path ["String"] []],
    serde_default := false, serde_skip_if_absent := false }

/-- The field injected by `resolve_provider = "X"`: note the article `a` in
the formatted documentation string. -/
def resolveProviderField (d : String) : OutField :=
  { attrs := ["Provides support to resolve additional information for a " ++
      dequote d ++ " item."],
    name := "resolve_provider",
    ty := .path ["bool"] [],
    serde_default := false, serde_skip_if_absent := false }

/-- The declared-field loop body of `lsp_object`: a declared field is passed
through unchanged, acquiring the serde `default` and
`skip_serializing_if = "Elective::is_absent"` directives exactly when its
type passes the `is_elective` test. -/
def processDeclaredField (f : DeclaredField) : OutField :=
  { attrs := f.attrs, name := f.name, ty := f.ty,
    serde_default := is_elective f.ty,
    serde_skip_if_absent := is_elective f.ty }

/-- The synthesized field list of `lsp_object`, in the exact push order of
the source: document-selector, static-registration id, dynamic-registration,
link-support, markup-kind-list, trigger-characters, resolve-provider, then
the declared fields in their original order. -/
def lsp_object_fields (spec : AttrSpec) (old_fields : List DeclaredField) : List OutField :=
  (if spec.has_document_selector then [documentSelectorField] else [])
  ++ (if spec.has_static_registration then [staticRegistrationField] else [])
  ++ (match spec.dynamic_registration with
      | some d => [dynamicRegistrationField d]
      | none => [])
  ++ (match spec.link_support with
      | some d => [linkSupportField d]
      | none => [])
  ++ (match spec.markup_kind_list with
      | some p => [markupKindListField p]
      | none => [])
  ++ (match spec.triggers with
      | some d => [triggersField d]
      | none => [])
  ++ (match spec.resolve_provider with
      | some d => [resolveProviderField d]
      | none => [])
  ++ old_fields.map processDeclaredField

/-- The container-level output of `lsp_object`: whether `#[serde(default)]`
is attached (the `allow_missing` flag), the unconditional
`#[serde(rename_all = "camelCase")]`, and the synthesized field list. -/
structure LspObjectOutput where
  serde_default_container : Bool
  rename_all_camel_case : Bool
  fields : List OutField

/-- Assemble the final output of the `lsp_object` synthesizer from a parsed
specification and the declared fields. -/
def lsp_object_output (spec : AttrSpec) (old_fields : List DeclaredField) : LspObjectOutput :=
  { serde_default_container := spec.allow_missing,
    rename_all_camel_case := true,
    fields := lsp_object_fields spec old_fields }

/-! ### The serde `rename_all = "camelCase"` transform

serde's rename rules operate on the ASCII bytes of an identifier, so the
transform is embedded at the level of byte lists. `CamelCase` renames a
field by first applying `PascalCase` (capitalize the first byte of every
underscore-separated word and drop the underscores) and then lowercasing the
first byte; it renames a variant by lowercasing the first byte only. -/

/-- `u8::to_ascii_uppercase` on one byte. -/
def asciiUpperB (b : Nat) : Nat :=
  if 97 ≤ b ∧ b ≤ 122 then b - 32 else b

/-- `u8::to_ascii_lowercase` on one byte. -/
def asciiLowerB (b : Nat) : Nat :=
  if 65 ≤ b ∧ b ≤ 90 then b + 32 else b

/-- Split a byte list on the underscore byte (95), keeping empty words, the
way serde's `PascalCase` rule delimits words. -/
def splitUnderscoreB : List Nat → List (List Nat)
  | [] => [[]]
  | b :: rest =>
    let r := splitUnderscoreB rest
    if b = 95 then [] :: r
    else
      match r with
      | [] => [[b]]
      | w :: ws => (b :: w) :: ws

/-- Capitalize the first byte of a word. -/
def capFirstB : List Nat → List Nat
  | [] => []
  | b :: bs => asciiUpperB b :: bs

/-- Lowercase the first byte of a word. -/
def lowerFirstB : List Nat → List Nat
  | [] => []
  | b :: bs => asciiLowerB b :: bs

/-- serde's `PascalCase` rename of a field identifier. -/
def pascalB (bs : List Nat) : List Nat :=
  ((splitUnderscoreB bs).map capFirstB).flatten

/-- serde's `camelCase` rename of a field identifier: `PascalCase`, then the
first byte lowercased. -/
def byteCamelField (bs : List Nat) : List Nat :=
  lowerFirstB (pascalB bs)

/-- serde's `camelCase` rename of a variant identifier: the first byte
lowercased, the rest untouched. -/
def byteCamelVariant (bs : List Nat) : List Nat :=
  lowerFirstB bs

/-- Modelled from the spec: the lowerCamelCase transform as the specification
describes it for field identifiers — "first segment lowercased, each later
segment capitalized, concatenated with no separator". It is stated here only
to be compared against the transform serde actually applies. -/
def claimLowerCamel (bs : List Nat) : List Nat :=
  match splitUnderscoreB bs with
  | [] => []
  | w :: ws => w.map asciiLowerB ++ (ws.map capFirstB).flatten

/-- The bytes of a string (the code points of its characters; for the ASCII
identifiers at issue these are its UTF-8 bytes). -/
def strBytes (s : String) : List Nat :=
  s.data.map Char.toNat

/-- The `camelCase` field rename at the string level, by transforming the
string's bytes and reassembling. -/
def camelFieldStr (s : String) : String :=
  String.mk ((byteCamelField (strBytes s)).map Char.ofNat)

/-- The `camelCase` variant rename at the string level. -/
def camelVariantStr (s : String) : String :=
  String.mk ((byteCamelVariant (strBytes s)).map Char.ofNat)

/-! ### Wire values and the serde semantics of the emitted attributes -/

/-- A JSON-like wire value, the payload shape the generated (de)serializers
operate on. -/
inductive Json where
  | null
  | bool (b : Bool)
  | num (n : Int)
  | str (s : String)
  | arr (xs : List Json)
  | obj (entries : List (String × Json))

/-- Look up a property of a JSON object by name. -/
def lookupEntry (key : String) : List (String × Json) → Option Json
  | [] => none
  | (k, v) :: rest => if k = key then some v else lookupEntry key rest

/-- The deserializer serde derives for a generated record, as a function of
the attributes the synthesizer emitted. Each field is read from the input
object under its `camelCase`-renamed name; a missing field falls back to its
type's own default when the field carries the synthesizer's `default`
directive or the container carries `#[serde(default)]` (the `allow_missing`
flag, whose container default is the derived all-field-defaults value), and
is an error otherwise. Per-type decoding and defaults are supplied as
parameters. The result lists each field's decoded value under its declared
name. -/
def decodeFieldStep (allowMissing : Bool)
    (tyDecode : RustType → Json → Except String Json) (tyDefault : RustType → Json)
    (input : List (String × Json)) (f : OutField) : Except String Json :=
  match lookupEntry (camelFieldStr f.name) input with
  | some v => tyDecode f.ty v
  | none =>
    if f.serde_default || allowMissing then .ok (tyDefault f.ty)
    else .error ("missing field `" ++ camelFieldStr f.name ++ "`")

def deserializeStruct (allowMissing : Bool) (fields : List OutField)
    (tyDecode : RustType → Json → Except String Json)
    (tyDefault : RustType → Json)
    (input : List (String × Json)) : Except String (List (String × Json)) :=
  match fields with
  | [] => .ok []
  | f :: rest =>
    match decodeFieldStep allowMissing tyDecode tyDefault input f with
    | .error e => .error e
    | .ok x =>
      match deserializeStruct allowMissing rest tyDecode tyDefault input with
      | .error e => .error e
      | .ok xs => .ok ((f.name, x) :: xs)

/-! ### The `lsp_kind` synthesizer -/

/-- The serialization-relevant attributes `lsp_kind` attaches to a sum-type
declaration: whether the numeric representation (`Serialize_repr` /
`Deserialize_repr` with `repr(u8)`) was chosen, whether
`rename_all = "camelCase"` is present, and whether `serde(untagged)` is
present. The macro never attaches `serde(untagged)`; the field records that
decision so the dispatch shape of the derived deserializer can be stated. -/
structure KindAttrs where
  numberRepr : Bool
  renameAllCamelCase : Bool
  untagged : Bool
deriving DecidableEq

/-- The token loop of `lsp_kind`: with no tokens the default derive with
`rename_all = "camelCase"` stands; the identifier `number` replaces it with
the numeric-representation derive; any other token is the fatal
`Error parsing lsp_kind` panic. -/
def lspKindLoop (cur : KindAttrs) : List Token → Except String KindAttrs
  | [] => .ok cur
  | Token.ident s :: ts =>
    if s = "number" then
      lspKindLoop { numberRepr := true, renameAllCamelCase := false, untagged := false } ts
    else .error "Error parsing lsp_kind"
  | _ :: _ => .error "Error parsing lsp_kind"

/-- The attribute set `lsp_kind` emits for a given annotation token list. -/
def lsp_kind_attrs (attr : List Token) : Except String KindAttrs :=
  lspKindLoop { numberRepr := false, renameAllCamelCase := true, untagged := false } attr

/-- `BooleanOrOptions<T>` from the message catalog: either a boolean or a
`T`, in declaration order `Boolean` then `Options`. -/
inductive BooleanOrOptions (T : Type) where
  | Boolean (b : Bool)
  | Options (t : T)
deriving DecidableEq

/-- Decode a JSON boolean. -/
def decodeJsonBool : Json → Except String Bool
  | .bool b => .ok b
  | _ => .error "expected boolean"

/-- serde's externally tagged enum deserialization for `BooleanOrOptions`
(the representation derived when no enum representation attribute is
present): the input must be a single-entry map whose key is a variant's
(possibly `camelCase`-renamed) name; the entry's value is decoded with that
variant's content type. -/
def decodeBooleanOrOptionsExternal {T : Type} (renameAll : Bool)
    (decT : Json → Except String T) (j : Json) : Except String (BooleanOrOptions T) :=
  let booleanKey := if renameAll then camelVariantStr "Boolean" else "Boolean"
  let optionsKey := if renameAll then camelVariantStr "Options" else "Options"
  match j with
  | .obj [(k, v)] =>
    if k = booleanKey then (decodeJsonBool v).map BooleanOrOptions.Boolean
    else if k = optionsKey then (decT v).map BooleanOrOptions.Options
    else .error "unknown variant"
  | _ => .error "expected externally tagged enum"

/-- Modelled from the spec: the untagged one-of deserialization the
specification describes for data-carrying sum types — try each variant's
shape in declaration order (`Boolean` first, then `Options`) and accept the
first success, failing only if none match. Stated to be compared against the
deserializer the emitted attributes actually produce. -/
def decodeBooleanOrOptionsUntagged {T : Type}
    (decT : Json → Except String T) (j : Json) : Except String (BooleanOrOptions T) :=
  match decodeJsonBool j with
  | .ok b => .ok (BooleanOrOptions.Boolean b)
  | .error _ =>
    match decT j with
    | .ok t => .ok (BooleanOrOptions.Options t)
    | .error _ => .error "data did not match any variant of untagged enum BooleanOrOptions"

/-- The deserializer derived for `BooleanOrOptions` as a function of the
attributes `lsp_kind` emitted: `serde(untagged)` would select the untagged
one-of dispatch; without it serde derives the externally tagged
representation. -/
def decodeBooleanOrOptions {T : Type} (a : KindAttrs)
    (decT : Json → Except String T) (j : Json) : Except String (BooleanOrOptions T) :=
  if a.untagged then decodeBooleanOrOptionsUntagged decT j
  else decodeBooleanOrOptionsExternal a.renameAllCamelCase decT j

/-! ### Claims about the shape synthesizer -/

/-- C3: for every record declaration, the synthesized field list places the
injected fields in the fixed order document-selector, static-registration id,
dynamic-registration, link-support, markup-kind-list, trigger-characters,
resolve-provider — each present exactly when its option was given — followed
by the user-declared fields in their original declaration order. -/
theorem C3_field_order (spec : AttrSpec) (olds : List DeclaredField) :
    (lsp_object_fields spec olds).map OutField.name =
      (if spec.has_document_selector then ["document_selector"] else [])
      ++ (if spec.has_static_registration then ["id"] else [])
      ++ (match spec.dynamic_registration with
          | some _ => ["dynamic_registration"] | none => [])
      ++ (match spec.link_support with
          | some _ => ["link_support"] | none => [])
      ++ (match spec.markup_kind_list with
          | some p => [dequote p ++ "_format"] | none => [])
      ++ (match spec.triggers with
          | some _ => ["trigger_characters"] | none => [])
      ++ (match spec.resolve_provider with
          | some _ => ["resolve_provider"] | none => [])
      ++ olds.map DeclaredField.name := by
  obtain ⟨am, hds, hsr, dr, ls, mkl, tr, rp⟩ := spec
  cases hds <;> cases hsr <;> cases dr <;> cases ls <;> cases mkl <;> cases tr <;> cases rp <;>
    simp [lsp_object_fields, documentSelectorField, staticRegistrationField,
      dynamicRegistrationField, linkSupportField, markupKindListField, triggersField,
      resolveProviderField, processDeclaredField, List.map_map, Function.comp]

/-- C4: the specification parser succeeds exactly when the token stream is
exhausted in the scanning state, and ending in any awaiting-value state is
the fatal missing-value error, reported by the parsing phase itself. -/
theorem C4_terminal_state (attr : List Token) :
    (∀ spec, lsp_object_parse attr = Except.ok spec →
      runTokens (AttributeParserState.option, emptyAttrSpec) attr =
        Except.ok (AttributeParserState.option, spec)) ∧
    (∀ st spec,
      runTokens (AttributeParserState.option, emptyAttrSpec) attr = Except.ok (st, spec) →
      st.is_searching_for_value = true →
      lsp_object_parse attr = Except.error "Missing a value for an option.") := by
  constructor
  · intro spec h
    unfold lsp_object_parse at h
    cases hr : runTokens (.option, emptyAttrSpec) attr with
    | error e => rw [hr] at h; exact absurd h (by simp)
    | ok p =>
      obtain ⟨st, s⟩ := p
      rw [hr] at h
      cases st with
      | option =>
        simp [AttributeParserState.is_searching_for_value] at h
        rw [h]
      | dynamicRegistrationValue => simp [AttributeParserState.is_searching_for_value] at h
      | linkSupportValue => simp [AttributeParserState.is_searching_for_value] at h
      | markupKindListValue => simp [AttributeParserState.is_searching_for_value] at h
      | triggersValue => simp [AttributeParserState.is_searching_for_value] at h
      | resolveProviderValue => simp [AttributeParserState.is_searching_for_value] at h
  · intro st spec h hsearch
    unfold lsp_object_parse
    rw [h]
    simp [hsearch]

/-- C4 witness: the stream consisting of the bare identifier
`dynamic_registration` ends in an awaiting-value state, and parsing it fails
with the missing-value error. -/
theorem C4_terminal_state_witness :
    runTokens (AttributeParserState.option, emptyAttrSpec) [Token.ident "dynamic_registration"] =
      Except.ok (AttributeParserState.dynamicRegistrationValue, emptyAttrSpec) ∧
    lsp_object_parse [Token.ident "dynamic_registration"] =
      Except.error "Missing a value for an option." :=
  ⟨rfl, (C4_terminal_state [Token.ident "dynamic_registration"]).2
    AttributeParserState.dynamicRegistrationValue emptyAttrSpec rfl rfl⟩

/-- C10: a declared field receives the elective serialization directives if
and only if its type is a path type whose first segment is the identifier
`Elective`; in particular a type naming `Elective` only through a longer
qualified path is treated as non-elective and receives no directive. -/
theorem C10_elective_classification :
    (∀ f : DeclaredField,
      ((processDeclaredField f).serde_default = true ∧
        (processDeclaredField f).serde_skip_if_absent = true) ↔
      ∃ rest args, f.ty = RustType.path ("Elective" :: rest) args) ∧
    (∀ (f : DeclaredField) (args : List RustType),
      f.ty = RustType.path ["lsp_msg_internal", "Elective"] args →
      (processDeclaredField f).serde_default = false ∧
        (processDeclaredField f).serde_skip_if_absent = false) := by
  have key : ∀ ty : RustType, (is_elective ty = true) ↔
      ∃ rest args, ty = RustType.path ("Elective" :: rest) args := by
    intro ty
    cases ty with
    | other => simp [is_elective]
    | path segs args =>
      cases segs with
      | nil => simp [is_elective]
      | cons s rest =>
        by_cases h : s = "Elective"
        · subst h
          constructor
          · intro _
            exact ⟨rest, args, rfl⟩
          · intro _
            rfl
        · constructor
          · intro hel
            exfalso
            have hfalse : is_elective (RustType.path (s :: rest) args) = false := by
              simp [is_elective, h]
            rw [hfalse] at hel
            cases hel
          · rintro ⟨r, a, hc⟩
            rw [RustType.path.injEq, List.cons.injEq] at hc
            exact absurd hc.1.1 h
  constructor
  · intro f
    simp only [processDeclaredField]
    constructor
    · intro hel
      exact (key f.ty).mp hel.1
    · intro hex
      have := (key f.ty).mpr hex
      exact ⟨this, this⟩
  · intro f args hty
    simp only [processDeclaredField]
    have : is_elective f.ty = false := by
      rw [hty]
      rfl
    exact ⟨this, this⟩

/-- C10 witness: the field `root_path : lsp_msg_internal::Elective<String>`
receives no elective directive, while `root_path : Elective<String>` would. -/
theorem C10_elective_classification_witness :
    (processDeclaredField ⟨"root_path", [],
        RustType.path ["lsp_msg_internal", "Elective"] [RustType.path ["String"] []]⟩).serde_default
      = false ∧
    (processDeclaredField ⟨"root_path", [],
        RustType.path ["Elective"] [RustType.path ["String"] []]⟩).serde_default = true := by
  constructor
  · exact (C10_elective_classification.2 _ [RustType.path ["String"] []] rfl).1
  · exact ((C10_elective_classification.1 _).mpr
      ⟨[], [RustType.path ["String"] []], rfl⟩).1

/-- C1 counterexample: for a record declared with `static_registration` and
no declared fields, the synthesizer injects the field `id : Elective<String>`
— a field whose type is elective — with neither of the two serialization
directives, so the claim fails on the synthesized id field. -/
theorem C1_counterexample :
    lsp_object_fields { emptyAttrSpec with has_static_registration := true } [] =
      [staticRegistrationField] ∧
    is_elective staticRegistrationField.ty = true ∧
    staticRegistrationField.serde_default = false ∧
    staticRegistrationField.serde_skip_if_absent = false :=
  ⟨rfl, rfl, rfl, rfl⟩

/-- C1 (amended): every user-declared field whose type is elective receives
exactly the two serialization directives (default on input, skip when
absent), every user-declared non-elective field receives none, but the
synthesized static-registration `id` field, although its type is
`Elective<String>`, receives no directive. -/
theorem C1_elective_directives (spec : AttrSpec) (olds : List DeclaredField)
    (f : DeclaredField) (hf : f ∈ olds) :
    processDeclaredField f ∈ lsp_object_fields spec olds ∧
    (processDeclaredField f).serde_default = is_elective f.ty ∧
    (processDeclaredField f).serde_skip_if_absent = is_elective f.ty ∧
    (spec.has_static_registration = true →
      staticRegistrationField ∈ lsp_object_fields spec olds ∧
      is_elective staticRegistrationField.ty = true ∧
      staticRegistrationField.serde_default = false ∧
      staticRegistrationField.serde_skip_if_absent = false) := by
  refine ⟨?_, rfl, rfl, fun h => ⟨?_, rfl, rfl, rfl⟩⟩
  · unfold lsp_object_fields
    exact List.mem_append_right _ (List.mem_map_of_mem processDeclaredField hf)
  · simp only [lsp_object_fields, h, if_true]
    exact List.mem_append_left _ (List.mem_append_left _ (List.mem_append_left _
      (List.mem_append_left _ (List.mem_append_left _ (List.mem_append_left _
        (List.mem_append_right _ (List.mem_singleton.mpr rfl)))))))

/-- C1 witness: a concrete record with `static_registration` and one
declared elective field; the declared field gets both directives and the
injected id field gets none. -/
theorem C1_elective_directives_witness :
    processDeclaredField ⟨"experimental", [], RustType.path ["Elective"] [RustType.path ["Value"] []]⟩ ∈
      lsp_object_fields { emptyAttrSpec with has_static_registration := true }
        [⟨"experimental", [], RustType.path ["Elective"] [RustType.path ["Value"] []]⟩] ∧
    staticRegistrationField ∈
      lsp_object_fields { emptyAttrSpec with has_static_registration := true }
        [⟨"experimental", [], RustType.path ["Elective"] [RustType.path ["Value"] []]⟩] :=
  ⟨(C1_elective_directives _ _ _ (List.Mem.head _)).1,
    ((C1_elective_directives { emptyAttrSpec with has_static_registration := true } _ _
      (List.Mem.head _)).2.2.2 rfl).1⟩

/-- C6 counterexample: for `markup_kind_list = "completion"` the synthesized
field is named `completion_format` but its documentation string is the
two-paragraph text the source formats, not the single sentence the claim
states. -/
theorem C6_counterexample :
    (lsp_object_fields { emptyAttrSpec with markup_kind_list := some "\"completion\"" } []).map
        OutField.attrs =
      [["The supported `MarkupKind`s for the `completion` property.\n\nThe order describes the preferred format."]] ∧
    (lsp_object_fields { emptyAttrSpec with markup_kind_list := some "\"completion\"" } []).map
        OutField.name = ["completion_format"] ∧
    "The supported `MarkupKind`s for the `completion` property.\n\nThe order describes the preferred format."
      ≠ "Preferred formats for the completion property, most preferred first." :=
  ⟨by decide, by decide, by decide⟩

/-- C6 (amended): for every record declared with `markup_kind_list = "P"`,
the synthesizer injects a field named `P_format` whose type is
`Vec<MarkupKind>` and whose documentation string is exactly
"The supported `MarkupKind`s for the `P` property." followed by a blank line
and "The order describes the preferred format." -/
theorem C6_markup_kind_list_field (spec : AttrSpec) (olds : List DeclaredField)
    (p : String) (h : spec.markup_kind_list = some p) :
    markupKindListField p ∈ lsp_object_fields spec olds ∧
    (markupKindListField p).name = dequote p ++ "_format" ∧
    (markupKindListField p).ty = RustType.path ["Vec"] [RustType.path ["MarkupKind"] []] ∧
    (markupKindListField p).attrs =
      ["The supported `MarkupKind`s for the `" ++ dequote p ++
        "` property.\n\nThe order describes the preferred format."] := by
  refine ⟨?_, rfl, rfl, rfl⟩
  simp [lsp_object_fields, h, List.mem_append]

/-- C6 witness: the concrete record declared with
`markup_kind_list = "completion"`. -/
theorem C6_markup_kind_list_field_witness :
    markupKindListField "\"completion\"" ∈
      lsp_object_fields { emptyAttrSpec with markup_kind_list := some "\"completion\"" } [] :=
  (C6_markup_kind_list_field _ [] _ rfl).1

/-- C7 counterexample: for `resolve_provider = "completion"` the synthesized
boolean field `resolve_provider` carries the documentation "Provides support
to resolve additional information for a completion item." — the article is
`a`, not `an` as the claim's template states. -/
theorem C7_counterexample :
    (lsp_object_fields { emptyAttrSpec with resolve_provider := some "\"completion\"" } []).map
        OutField.attrs =
      [["Provides support to resolve additional information for a completion item."]] ∧
    (lsp_object_fields { emptyAttrSpec with resolve_provider := some "\"completion\"" } []).map
        OutField.name = ["resolve_provider"] ∧
    "Provides support to resolve additional information for a completion item."
      ≠ "Provides support to resolve additional information for an completion item." :=
  ⟨by decide, by decide, by decide⟩

/-- C7 (amended): for every record declared with `resolve_provider = "X"`,
the synthesizer injects a boolean field named `resolve_provider` whose
documentation string is exactly "Provides support to resolve additional
information for a X item." (with the article `a`). -/
theorem C7_resolve_provider_field (spec : AttrSpec) (olds : List DeclaredField)
    (d : String) (h : spec.resolve_provider = some d) :
    resolveProviderField d ∈ lsp_object_fields spec olds ∧
    (resolveProviderField d).name = "resolve_provider" ∧
    (resolveProviderField d).ty = RustType.path ["bool"] [] ∧
    (resolveProviderField d).attrs =
      ["Provides support to resolve additional information for a " ++ dequote d ++ " item."] := by
  refine ⟨?_, rfl, rfl, rfl⟩
  simp [lsp_object_fields, h, List.mem_append]

/-- C7 witness: the concrete record declared with
`resolve_provider = "completion"`. -/
theorem C7_resolve_provider_field_witness :
    resolveProviderField "\"completion\"" ∈
      lsp_object_fields { emptyAttrSpec with resolve_provider := some "\"completion\"" } [] :=
  (C7_resolve_provider_field _ [] _ rfl).1

/-! ### Duplicate value-options (C5) -/

/-- Two specifications that agree on the three flags and on every
value-option other than `o`. -/
def AgreeExcept (o : ValueOption) (s₁ s₂ : AttrSpec) : Prop :=
  s₁.allow_missing = s₂.allow_missing ∧
  s₁.has_document_selector = s₂.has_document_selector ∧
  s₁.has_static_registration = s₂.has_static_registration ∧
  ∀ o', o' ≠ o → s₁.getVal o' = s₂.getVal o'

theorem agreeExcept_setVal_left (o : ValueOption) (s : AttrSpec) (v : String) :
    AgreeExcept o (s.setVal o v) s := by
  refine ⟨?_, ?_, ?_, ?_⟩
  · cases o <;> rfl
  · cases o <;> rfl
  · cases o <;> rfl
  · intro o' ho'
    cases o <;> cases o' <;> first | rfl | exact absurd rfl ho'

theorem AgreeExcept.setVal_both {o : ValueOption} {s₁ s₂ : AttrSpec}
    (h : AgreeExcept o s₁ s₂) (o₂ : ValueOption) (v : String) :
    AgreeExcept o (s₁.setVal o₂ v) (s₂.setVal o₂ v) := by
  obtain ⟨h1, h2, h3, h4⟩ := h
  refine ⟨?_, ?_, ?_, ?_⟩
  · cases o₂ <;> exact h1
  · cases o₂ <;> exact h2
  · cases o₂ <;> exact h3
  · intro o' ho'
    cases o₂ <;> cases o' <;> first | rfl | exact h4 _ ho'

theorem AgreeExcept.set_allow_missing {o : ValueOption} {s₁ s₂ : AttrSpec}
    (h : AgreeExcept o s₁ s₂) (b : Bool) :
    AgreeExcept o { s₁ with allow_missing := b } { s₂ with allow_missing := b } := by
  obtain ⟨_, h2, h3, h4⟩ := h
  exact ⟨rfl, h2, h3, fun o' ho' => by cases o' <;> exact h4 _ ho'⟩

theorem AgreeExcept.set_document_selector {o : ValueOption} {s₁ s₂ : AttrSpec}
    (h : AgreeExcept o s₁ s₂) (b : Bool) :
    AgreeExcept o { s₁ with has_document_selector := b } { s₂ with has_document_selector := b } := by
  obtain ⟨h1, _, h3, h4⟩ := h
  exact ⟨h1, rfl, h3, fun o' ho' => by cases o' <;> exact h4 _ ho'⟩

theorem AgreeExcept.set_static_registration {o : ValueOption} {s₁ s₂ : AttrSpec}
    (h : AgreeExcept o s₁ s₂) (b : Bool) :
    AgreeExcept o { s₁ with has_static_registration := b } { s₂ with has_static_registration := b } := by
  obtain ⟨h1, h2, _, h4⟩ := h
  exact ⟨h1, h2, rfl, fun o' ho' => by cases o' <;> exact h4 _ ho'⟩

theorem AgreeExcept.setVal_eq {o : ValueOption} {s₁ s₂ : AttrSpec}
    (h : AgreeExcept o s₁ s₂) (v : String) : s₁.setVal o v = s₂.setVal o v := by
  obtain ⟨h1, h2, h3, h4⟩ := h
  obtain ⟨a1, b1, c1, d1, e1, f1, g1, i1⟩ := s₁
  obtain ⟨a2, b2, c2, d2, e2, f2, g2, i2⟩ := s₂
  cases o with
  | dynamicRegistration =>
    simp only [AttrSpec.setVal, AttrSpec.mk.injEq]
    exact ⟨h1, h2, h3, trivial, h4 .linkSupport (by decide), h4 .markupKindList (by decide),
      h4 .triggers (by decide), h4 .resolveProvider (by decide)⟩
  | linkSupport =>
    simp only [AttrSpec.setVal, AttrSpec.mk.injEq]
    exact ⟨h1, h2, h3, h4 .dynamicRegistration (by decide), trivial, h4 .markupKindList (by decide),
      h4 .triggers (by decide), h4 .resolveProvider (by decide)⟩
  | markupKindList =>
    simp only [AttrSpec.setVal, AttrSpec.mk.injEq]
    exact ⟨h1, h2, h3, h4 .dynamicRegistration (by decide), h4 .linkSupport (by decide), trivial,
      h4 .triggers (by decide), h4 .resolveProvider (by decide)⟩
  | triggers =>
    simp only [AttrSpec.setVal, AttrSpec.mk.injEq]
    exact ⟨h1, h2, h3, h4 .dynamicRegistration (by decide), h4 .linkSupport (by decide),
      h4 .markupKindList (by decide), trivial, h4 .resolveProvider (by decide)⟩
  | resolveProvider =>
    simp only [AttrSpec.setVal, AttrSpec.mk.injEq]
    exact ⟨h1, h2, h3, h4 .dynamicRegistration (by decide), h4 .linkSupport (by decide),
      h4 .markupKindList (by decide), h4 .triggers (by decide), trivial⟩

/-- One parser step behaves the same on two specifications that agree away
from `o`: the state transition and error behaviour are identical, and the
resulting specifications again agree away from `o`. -/
theorem lspObjectStep_congr {o : ValueOption} {st : AttributeParserState} {s₁ s₂ : AttrSpec}
    {t : Token} {st' : AttributeParserState} {m₁ : AttrSpec}
    (h : lspObjectStep st s₁ t = Except.ok (st', m₁)) (hag : AgreeExcept o s₁ s₂) :
    ∃ m₂, lspObjectStep st s₂ t = Except.ok (st', m₂) ∧ AgreeExcept o m₁ m₂ := by
  cases st with
  | option =>
    cases t with
    | ident s =>
      simp only [lspObjectStep] at h ⊢
      split_ifs at h ⊢ <;>
        (simp only [Except.ok.injEq, Prod.mk.injEq] at h
         obtain ⟨rfl, rfl⟩ := h
         first
         | exact ⟨_, rfl, hag.set_allow_missing true⟩
         | exact ⟨_, rfl, hag.set_document_selector true⟩
         | exact ⟨_, rfl, hag.set_static_registration true⟩
         | exact ⟨s₂, rfl, hag⟩)
    | literal s =>
      simp only [lspObjectStep, Except.ok.injEq, Prod.mk.injEq] at h ⊢
      obtain ⟨rfl, rfl⟩ := h
      exact ⟨s₂, ⟨rfl, rfl⟩, hag⟩
    | other =>
      simp only [lspObjectStep, Except.ok.injEq, Prod.mk.injEq] at h ⊢
      obtain ⟨rfl, rfl⟩ := h
      exact ⟨s₂, ⟨rfl, rfl⟩, hag⟩
  | dynamicRegistrationValue =>
    cases t with
    | literal l =>
      simp only [lspObjectStep, Except.ok.injEq, Prod.mk.injEq] at h ⊢
      obtain ⟨rfl, rfl⟩ := h
      exact ⟨_, ⟨rfl, rfl⟩, hag.setVal_both .dynamicRegistration l⟩
    | ident s =>
      simp only [lspObjectStep, Except.ok.injEq, Prod.mk.injEq] at h ⊢
      obtain ⟨rfl, rfl⟩ := h
      exact ⟨s₂, ⟨rfl, rfl⟩, hag⟩
    | other =>
      simp only [lspObjectStep, Except.ok.injEq, Prod.mk.injEq] at h ⊢
      obtain ⟨rfl, rfl⟩ := h
      exact ⟨s₂, ⟨rfl, rfl⟩, hag⟩
  | linkSupportValue =>
    cases t with
    | literal l =>
      simp only [lspObjectStep, Except.ok.injEq, Prod.mk.injEq] at h ⊢
      obtain ⟨rfl, rfl⟩ := h
      exact ⟨_, ⟨rfl, rfl⟩, hag.setVal_both .linkSupport l⟩
    | ident s =>
      simp only [lspObjectStep, Except.ok.injEq, Prod.mk.injEq] at h ⊢
      obtain ⟨rfl, rfl⟩ := h
      exact ⟨s₂, ⟨rfl, rfl⟩, hag⟩
    | other =>
      simp only [lspObjectStep, Except.ok.injEq, Prod.mk.injEq] at h ⊢
      obtain ⟨rfl, rfl⟩ := h
      exact ⟨s₂, ⟨rfl, rfl⟩, hag⟩
  | markupKindListValue =>
    cases t with
    | literal l =>
      simp only [lspObjectStep, Except.ok.injEq, Prod.mk.injEq] at h ⊢
      obtain ⟨rfl, rfl⟩ := h
      exact ⟨_, ⟨rfl, rfl⟩, hag.setVal_both .markupKindList l⟩
    | ident s =>
      simp only [lspObjectStep, Except.ok.injEq, Prod.mk.injEq] at h ⊢
      obtain ⟨rfl, rfl⟩ := h
      exact ⟨s₂, ⟨rfl, rfl⟩, hag⟩
    | other =>
      simp only [lspObjectStep, Except.ok.injEq, Prod.mk.injEq] at h ⊢
      obtain ⟨rfl, rfl⟩ := h
      exact ⟨s₂, ⟨rfl, rfl⟩, hag⟩
  | triggersValue =>
    cases t with
    | literal l =>
      simp only [lspObjectStep, Except.ok.injEq, Prod.mk.injEq] at h ⊢
      obtain ⟨rfl, rfl⟩ := h
      exact ⟨_, ⟨rfl, rfl⟩, hag.setVal_both .triggers l⟩
    | ident s =>
      simp only [lspObjectStep, Except.ok.injEq, Prod.mk.injEq] at h ⊢
      obtain ⟨rfl, rfl⟩ := h
      exact ⟨s₂, ⟨rfl, rfl⟩, hag⟩
    | other =>
      simp only [lspObjectStep, Except.ok.injEq, Prod.mk.injEq] at h ⊢
      obtain ⟨rfl, rfl⟩ := h
      exact ⟨s₂, ⟨rfl, rfl⟩, hag⟩
  | resolveProviderValue =>
    cases t with
    | literal l =>
      simp only [lspObjectStep, Except.ok.injEq, Prod.mk.injEq] at h ⊢
      obtain ⟨rfl, rfl⟩ := h
      exact ⟨_, ⟨rfl, rfl⟩, hag.setVal_both .resolveProvider l⟩
    | ident s =>
      simp only [lspObjectStep, Except.ok.injEq, Prod.mk.injEq] at h ⊢
      obtain ⟨rfl, rfl⟩ := h
      exact ⟨s₂, ⟨rfl, rfl⟩, hag⟩
    | other =>
      simp only [lspObjectStep, Except.ok.injEq, Prod.mk.injEq] at h ⊢
      obtain ⟨rfl, rfl⟩ := h
      exact ⟨s₂, ⟨rfl, rfl⟩, hag⟩

/-- The whole token loop behaves the same on two specifications that agree
away from `o`. -/
theorem runTokens_congr {o : ValueOption} (toks : List Token) :
    ∀ {st : AttributeParserState} {s₁ s₂ : AttrSpec} {st' : AttributeParserState} {m₁ : AttrSpec},
    runTokens (st, s₁) toks = Except.ok (st', m₁) → AgreeExcept o s₁ s₂ →
    ∃ m₂, runTokens (st, s₂) toks = Except.ok (st', m₂) ∧ AgreeExcept o m₁ m₂ := by
  induction toks with
  | nil =>
    intro st s₁ s₂ st' m₁ h hag
    simp only [runTokens, Except.ok.injEq, Prod.mk.injEq] at h
    obtain ⟨rfl, rfl⟩ := h
    exact ⟨s₂, rfl, hag⟩
  | cons t ts ih =>
    intro st s₁ s₂ st' m₁ h hag
    simp only [runTokens] at h ⊢
    cases hstep : lspObjectStep st s₁ t with
    | error e => rw [hstep] at h; exact absurd h (by simp)
    | ok p =>
      obtain ⟨stm, sm⟩ := p
      rw [hstep] at h
      obtain ⟨m₂', hs₂, hag'⟩ := lspObjectStep_congr hstep hag
      rw [hs₂]
      exact ih h hag'

/-- The token loop over an appended list runs the first list and, when it
succeeds, continues with the second from the reached state. -/
theorem runTokens_append (p : AttributeParserState × AttrSpec) (xs ys : List Token) :
    runTokens p (xs ++ ys) =
      match runTokens p xs with
      | .error e => .error e
      | .ok q => runTokens q ys := by
  induction xs generalizing p with
  | nil => rfl
  | cons t ts ih =>
    obtain ⟨st, s⟩ := p
    simp only [List.cons_append, runTokens]
    cases lspObjectStep st s t with
    | error e => rfl
    | ok q => exact ih q

theorem runTokens_append_ok (xs ys : List Token) {p q : AttributeParserState × AttrSpec}
    (h : runTokens p xs = Except.ok q) :
    runTokens p (xs ++ ys) = runTokens q ys := by
  rw [runTokens_append, h]

/-- From the scanning state, the three tokens of one `name = "value"`
occurrence of a value-option land back in the scanning state having recorded
the value. -/
theorem runTokens_occ (s : AttrSpec) (o : ValueOption) (v : String) :
    runTokens (AttributeParserState.option, s) (occTokens o v) =
      Except.ok (AttributeParserState.option, s.setVal o v) := by
  cases o <;> rfl

/-- C5: duplicate occurrences of the same value-option overwrite, last write
wins: a token sequence containing two parsed occurrences of the option
parses to exactly the same result as the sequence with the earlier
occurrence removed. The hypotheses say that the surrounding token stretches
really leave the parser scanning, i.e. that both stretches are parsed as
occurrences of the option. -/
theorem C5_duplicate_last_write_wins (pre mid post : List Token) (o : ValueOption)
    (v₁ v₂ : String) (s₀ m : AttrSpec)
    (hpre : runTokens (AttributeParserState.option, emptyAttrSpec) pre =
      Except.ok (AttributeParserState.option, s₀))
    (hmid : runTokens (AttributeParserState.option, s₀.setVal o v₁) mid =
      Except.ok (AttributeParserState.option, m)) :
    lsp_object_parse (pre ++ occTokens o v₁ ++ mid ++ occTokens o v₂ ++ post) =
      lsp_object_parse (pre ++ mid ++ occTokens o v₂ ++ post) := by
  obtain ⟨m₂, hmid₂, hagm⟩ := runTokens_congr mid hmid (agreeExcept_setVal_left o s₀ v₁)
  have h1 : runTokens (AttributeParserState.option, emptyAttrSpec) (pre ++ occTokens o v₁) =
      Except.ok (AttributeParserState.option, s₀.setVal o v₁) := by
    rw [runTokens_append_ok _ _ hpre, runTokens_occ]
  have h2 : runTokens (AttributeParserState.option, emptyAttrSpec)
      (pre ++ occTokens o v₁ ++ mid) = Except.ok (AttributeParserState.option, m) := by
    rw [runTokens_append_ok _ _ h1]
    exact hmid
  have h3 : runTokens (AttributeParserState.option, emptyAttrSpec)
      (pre ++ occTokens o v₁ ++ mid ++ occTokens o v₂) =
      Except.ok (AttributeParserState.option, m.setVal o v₂) := by
    rw [runTokens_append_ok _ _ h2, runTokens_occ]
  have h4 := runTokens_append_ok _ post h3
  have g1 : runTokens (AttributeParserState.option, emptyAttrSpec) (pre ++ mid) =
      Except.ok (AttributeParserState.option, m₂) := by
    rw [runTokens_append_ok _ _ hpre]
    exact hmid₂
  have g2 : runTokens (AttributeParserState.option, emptyAttrSpec) (pre ++ mid ++ occTokens o v₂) =
      Except.ok (AttributeParserState.option, m₂.setVal o v₂) := by
    rw [runTokens_append_ok _ _ g1, runTokens_occ]
  have g3 := runTokens_append_ok _ post g2
  unfold lsp_object_parse
  rw [h4, g3, hagm.setVal_eq v₂]

/-- C5 witness: two adjacent `triggers = ...` occurrences parse exactly as
the second alone. -/
theorem C5_duplicate_last_write_wins_witness :
    lsp_object_parse ([] ++ occTokens ValueOption.triggers "\"x\"" ++ [] ++
        occTokens ValueOption.triggers "\"y\"" ++ []) =
      lsp_object_parse ([] ++ [] ++ occTokens ValueOption.triggers "\"y\"" ++ []) :=
  C5_duplicate_last_write_wins [] [] [] ValueOption.triggers "\"x\"" "\"y\""
    emptyAttrSpec (emptyAttrSpec.setVal ValueOption.triggers "\"x\"") rfl rfl

/-! ### The camelCase transform (C8) -/

theorem splitUnderscoreB_ne_nil (bs : List Nat) : splitUnderscoreB bs ≠ [] := by
  cases bs with
  | nil => simp [splitUnderscoreB]
  | cons c rest =>
    simp only [splitUnderscoreB]
    by_cases hc : c = 95
    · simp [hc]
    · simp only [if_neg hc]
      cases splitUnderscoreB rest <;> simp

/-- Every byte of a word of the underscore split is a byte of the original
list and is not the underscore byte. -/
theorem mem_splitUnderscoreB {bs w : List Nat} (hw : w ∈ splitUnderscoreB bs) :
    ∀ b ∈ w, b ∈ bs ∧ b ≠ 95 := by
  induction bs generalizing w with
  | nil =>
    simp only [splitUnderscoreB, List.mem_singleton] at hw
    subst hw
    intro b hb
    cases hb
  | cons c rest ih =>
    simp only [splitUnderscoreB] at hw
    by_cases hc : c = 95
    · rw [if_pos hc] at hw
      cases hw with
      | head => intro b hb; cases hb
      | tail _ hw' =>
        intro b hb
        obtain ⟨hmem, hne⟩ := ih hw' b hb
        exact ⟨List.mem_cons_of_mem _ hmem, hne⟩
    · rw [if_neg hc] at hw
      cases hsp : splitUnderscoreB rest with
      | nil => exact absurd hsp (splitUnderscoreB_ne_nil rest)
      | cons s ss =>
        rw [hsp] at hw
        cases hw with
        | head =>
          intro b hb
          cases hb with
          | head => exact ⟨List.mem_cons_self _ _, hc⟩
          | tail _ hb' =>
            have hs : s ∈ splitUnderscoreB rest := by
              rw [hsp]; exact List.mem_cons_self _ _
            obtain ⟨hmem, hne⟩ := ih hs b hb'
            exact ⟨List.mem_cons_of_mem _ hmem, hne⟩
        | tail _ hw' =>
          intro b hb
          have hs : w ∈ splitUnderscoreB rest := by
            rw [hsp]; exact List.mem_cons_of_mem _ hw'
          obtain ⟨hmem, hne⟩ := ih hs b hb
          exact ⟨List.mem_cons_of_mem _ hmem, hne⟩

theorem asciiLowerB_of_lower {b : Nat} (h1 : 97 ≤ b) (h2 : b ≤ 122) : asciiLowerB b = b := by
  unfold asciiLowerB
  rw [if_neg (by omega)]

theorem asciiUpperB_of_upper {b : Nat} (h1 : 65 ≤ b) (h2 : b ≤ 90) : asciiUpperB b = b := by
  unfold asciiUpperB
  rw [if_neg (by omega)]

theorem asciiLowerB_asciiUpperB {b : Nat} (h1 : 97 ≤ b) (h2 : b ≤ 122) :
    asciiLowerB (asciiUpperB b) = b := by
  unfold asciiUpperB asciiLowerB
  split_ifs <;> omega

theorem map_asciiLowerB_id {w : List Nat} (h : ∀ b ∈ w, 97 ≤ b ∧ b ≤ 122) :
    w.map asciiLowerB = w := by
  induction w with
  | nil => rfl
  | cons b bs ih =>
    simp only [List.map_cons]
    rw [asciiLowerB_of_lower (h b (List.mem_cons_self _ _)).1 (h b (List.mem_cons_self _ _)).2,
      ih (fun x hx => h x (List.mem_cons_of_mem _ hx))]

/-- On a lowercase-with-underscores identifier that does not start with an
underscore, the transform serde applies for `rename_all = "camelCase"`
coincides with the transform the specification describes. -/
theorem byteCamelField_eq_claim {bs : List Nat}
    (hlow : ∀ b ∈ bs, (97 ≤ b ∧ b ≤ 122) ∨ b = 95)
    (hhead : ∀ b, bs.head? = some b → b ≠ 95) :
    byteCamelField bs = claimLowerCamel bs := by
  cases bs with
  | nil => rfl
  | cons c rest =>
    have hc : c ≠ 95 := hhead c rfl
    have hclow : 97 ≤ c ∧ c ≤ 122 := by
      rcases hlow c (List.mem_cons_self _ _) with h | h
      · exact h
      · exact absurd h hc
    cases hsp : splitUnderscoreB rest with
    | nil => exact absurd hsp (splitUnderscoreB_ne_nil rest)
    | cons w ws =>
      have hsplit : splitUnderscoreB (c :: rest) = (c :: w) :: ws := by
        simp only [splitUnderscoreB, if_neg hc, hsp]
      have hwchars : ∀ b ∈ w, 97 ≤ b ∧ b ≤ 122 := by
        intro b hb
        have hwmem : w ∈ splitUnderscoreB rest := by
          rw [hsp]; exact List.mem_cons_self _ _
        obtain ⟨hmem, hne⟩ := mem_splitUnderscoreB hwmem b hb
        rcases hlow b (List.mem_cons_of_mem _ hmem) with h | h
        · exact h
        · exact absurd h hne
      have lhs_eq : byteCamelField (c :: rest) = c :: (w ++ (ws.map capFirstB).flatten) := by
        unfold byteCamelField pascalB
        rw [hsplit]
        simp only [List.map_cons, List.flatten_cons, capFirstB, List.cons_append, lowerFirstB]
        rw [asciiLowerB_asciiUpperB hclow.1 hclow.2]
      have rhs_eq : claimLowerCamel (c :: rest) = c :: (w ++ (ws.map capFirstB).flatten) := by
        unfold claimLowerCamel
        rw [hsplit]
        simp only [List.map_cons, List.cons_append]
        rw [asciiLowerB_of_lower hclow.1 hclow.2, map_asciiLowerB_id hwchars]
      rw [lhs_eq, rhs_eq]

/-- A word of a PascalCase identifier: an uppercase ASCII letter followed by
lowercase ASCII letters. -/
def pascalSegB (w : List Nat) : Bool :=
  match w with
  | [] => false
  | u :: rest2 =>
    (decide (65 ≤ u) && decide (u ≤ 90)) &&
      rest2.all (fun b => decide (97 ≤ b) && decide (b ≤ 122))

/-- On a variant identifier made of PascalCase words, the transform serde
applies (lowercase the first byte) coincides with the transform the
specification describes (first word lowercased, later words capitalized,
concatenated). -/
theorem byteCamelVariant_eq_claim (s₀ : List Nat) (ss : List (List Nat))
    (h₀ : pascalSegB s₀ = true) (hss : ∀ w ∈ ss, pascalSegB w = true) :
    byteCamelVariant (s₀ :: ss).flatten =
      s₀.map asciiLowerB ++ (ss.map capFirstB).flatten := by
  have hcap : ∀ w, pascalSegB w = true → capFirstB w = w := by
    intro w hw
    cases w with
    | nil => simp [pascalSegB] at hw
    | cons u r =>
      simp only [pascalSegB, Bool.and_eq_true, decide_eq_true_eq, List.all_eq_true] at hw
      simp only [capFirstB]
      rw [asciiUpperB_of_upper hw.1.1 hw.1.2]
  cases s₀ with
  | nil => simp [pascalSegB] at h₀
  | cons u r =>
    simp only [pascalSegB, Bool.and_eq_true, decide_eq_true_eq, List.all_eq_true] at h₀
    obtain ⟨⟨hu1, hu2⟩, hr⟩ := h₀
    have hmapss : ss.map capFirstB = ss := by
      calc ss.map capFirstB = ss.map id :=
            List.map_congr_left (fun w hw => hcap w (hss w hw))
        _ = ss := List.map_id ss
    have hmapr : r.map asciiLowerB = r :=
      map_asciiLowerB_id (fun b hb => ⟨(hr b hb).1, (hr b hb).2⟩)
    simp only [List.flatten_cons, byteCamelVariant, lowerFirstB, List.map_cons,
      List.cons_append, hmapss, hmapr]

/-- C8: the record synthesizer always emits `rename_all = "camelCase"`, and
so does the sum-type synthesizer when no `number` marker is given; on the
lowercase snake_case field identifiers the generated records use, the rename
serde then applies (`byteCamelField`, used through `camelFieldStr` as the
wire name of every field) is exactly the lowerCamelCase transform the
specification describes, likewise for PascalCase variant identifiers; and
the variant identifier `TextOnlyTransactional` is renamed exactly to
`textOnlyTransactional`. -/
theorem C8_camel_case_wire_names :
    (∀ (spec : AttrSpec) (olds : List DeclaredField),
      (lsp_object_output spec olds).rename_all_camel_case = true) ∧
    lsp_kind_attrs [] =
      Except.ok { numberRepr := false, renameAllCamelCase := true, untagged := false } ∧
    (∀ bs : List Nat, (∀ b ∈ bs, (97 ≤ b ∧ b ≤ 122) ∨ b = 95) →
      (∀ b, bs.head? = some b → b ≠ 95) →
      byteCamelField bs = claimLowerCamel bs) ∧
    (∀ (s₀ : List Nat) (ss : List (List Nat)),
      pascalSegB s₀ = true → (∀ w ∈ ss, pascalSegB w = true) →
      byteCamelVariant (s₀ :: ss).flatten =
        s₀.map asciiLowerB ++ (ss.map capFirstB).flatten) ∧
    byteCamelVariant (strBytes "TextOnlyTransactional") = strBytes "textOnlyTransactional" ∧
    byteCamelField (strBytes "dynamic_registration") = strBytes "dynamicRegistration" :=
  ⟨fun _ _ => rfl, rfl,
    fun _ hlow hhead => byteCamelField_eq_claim hlow hhead,
    fun s₀ ss h₀ hss => byteCamelVariant_eq_claim s₀ ss h₀ hss,
    by decide, by decide⟩

/-- C8 witness: the transform equivalences evaluated on the identifiers
`dynamic_registration` and `Text`/`Only`/`Transactional`. -/
theorem C8_camel_case_wire_names_witness :
    byteCamelField (strBytes "dynamic_registration") =
      claimLowerCamel (strBytes "dynamic_registration") ∧
    byteCamelVariant ([84, 101, 120, 116] :: [[79, 110, 108, 121],
        [84, 114, 97, 110, 115, 97, 99, 116, 105, 111, 110, 97, 108]]).flatten =
      [84, 101, 120, 116].map asciiLowerB ++
        ([[79, 110, 108, 121],
          [84, 114, 97, 110, 115, 97, 99, 116, 105, 111, 110, 97, 108]].map capFirstB).flatten :=
  ⟨C8_camel_case_wire_names.2.2.1 (strBytes "dynamic_registration") (by decide) (by decide),
    C8_camel_case_wire_names.2.2.2.1 [84, 101, 120, 116]
      [[79, 110, 108, 121], [84, 114, 97, 110, 115, 97, 99, 116, 105, 111, 110, 97, 108]]
      (by decide) (by decide)⟩

/-! ### allow_missing and record deserialization (C9) -/

theorem deserializeStruct_empty_allow (fields : List OutField)
    (tyDecode : RustType → Json → Except String Json) (tyDefault : RustType → Json) :
    deserializeStruct true fields tyDecode tyDefault [] =
      Except.ok (fields.map (fun f => (f.name, tyDefault f.ty))) := by
  induction fields with
  | nil => rfl
  | cons f rest ih =>
    simp only [deserializeStruct, decodeFieldStep, lookupEntry, Bool.or_true, if_true]
    rw [ih]
    rfl

theorem deserializeStruct_missing_error (fields : List OutField) (f : OutField)
    (tyDecode : RustType → Json → Except String Json) (tyDefault : RustType → Json)
    (input : List (String × Json)) (hf : f ∈ fields) (hnd : f.serde_default = false)
    (hlk : lookupEntry (camelFieldStr f.name) input = none) :
    ∃ e, deserializeStruct false fields tyDecode tyDefault input = Except.error e := by
  induction fields with
  | nil => cases hf
  | cons g rest ih =>
    cases hf with
    | head =>
      refine ⟨"missing field `" ++ camelFieldStr f.name ++ "`", ?_⟩
      simp [deserializeStruct, decodeFieldStep, hlk, hnd]
    | tail _ hf' =>
      obtain ⟨e, he⟩ := ih hf'
      simp only [deserializeStruct]
      cases hstep : decodeFieldStep false tyDecode tyDefault input g with
      | error e' => exact ⟨e', rfl⟩
      | ok x =>
        rw [he]
        exact ⟨e, rfl⟩

/-- C9: for a record declared with `allow_missing`, deserializing an input
containing none of the record's properties succeeds and gives every field
its declared type's own default value; without `allow_missing`, a missing
field that does not carry the elective `default` directive makes the whole
deserialization fail. -/
theorem C9_allow_missing (spec : AttrSpec) (olds : List DeclaredField)
    (tyDecode : RustType → Json → Except String Json) (tyDefault : RustType → Json) :
    (spec.allow_missing = true →
      deserializeStruct (lsp_object_output spec olds).serde_default_container
          (lsp_object_output spec olds).fields tyDecode tyDefault [] =
        Except.ok ((lsp_object_output spec olds).fields.map
          (fun f => (f.name, tyDefault f.ty)))) ∧
    (∀ (input : List (String × Json)) (f : OutField),
      spec.allow_missing = false → f ∈ (lsp_object_output spec olds).fields →
      f.serde_default = false → lookupEntry (camelFieldStr f.name) input = none →
      ∃ e, deserializeStruct (lsp_object_output spec olds).serde_default_container
          (lsp_object_output spec olds).fields tyDecode tyDefault input = Except.error e) := by
  constructor
  · intro h
    have hc : (lsp_object_output spec olds).serde_default_container = true := by
      simp [lsp_object_output, h]
    rw [hc]
    exact deserializeStruct_empty_allow _ _ _
  · intro input f hm hf hnd hlk
    have hc : (lsp_object_output spec olds).serde_default_container = false := by
      simp [lsp_object_output, hm]
    rw [hc]
    exact deserializeStruct_missing_error _ f _ _ _ hf hnd hlk

/-- C9 witness: a record with `allow_missing` and one boolean field
deserializes from the empty input to the all-defaults value, and the same
record without `allow_missing` fails on the same input. -/
theorem C9_allow_missing_witness :
    deserializeStruct
        (lsp_object_output { emptyAttrSpec with allow_missing := true }
          [⟨"apply_edit", [], RustType.path ["bool"] []⟩]).serde_default_container
        (lsp_object_output { emptyAttrSpec with allow_missing := true }
          [⟨"apply_edit", [], RustType.path ["bool"] []⟩]).fields
        (fun _ j => Except.ok j) (fun _ => Json.bool false) [] =
      Except.ok [("apply_edit", Json.bool false)] ∧
    ∃ e, deserializeStruct
        (lsp_object_output emptyAttrSpec
          [⟨"apply_edit", [], RustType.path ["bool"] []⟩]).serde_default_container
        (lsp_object_output emptyAttrSpec
          [⟨"apply_edit", [], RustType.path ["bool"] []⟩]).fields
        (fun _ j => Except.ok j) (fun _ => Json.bool false) [] = Except.error e :=
  ⟨(C9_allow_missing { emptyAttrSpec with allow_missing := true }
      [⟨"apply_edit", [], RustType.path ["bool"] []⟩]
      (fun _ j => Except.ok j) (fun _ => Json.bool false)).1 rfl,
    (C9_allow_missing emptyAttrSpec [⟨"apply_edit", [], RustType.path ["bool"] []⟩]
      (fun _ j => Except.ok j) (fun _ => Json.bool false)).2 []
      (processDeclaredField ⟨"apply_edit", [], RustType.path ["bool"] []⟩)
      rfl (List.Mem.head _) rfl rfl⟩

/-! ### Untagged versus externally tagged sum types (C2) -/

/-- C2 counterexample: `lsp_kind` with no `number` marker emits the plain
serde derive without `serde(untagged)`, so the derived deserializer for
`BooleanOrOptions` is externally tagged: decoding the bare boolean literal
`true` fails instead of yielding the `Boolean` variant as the claim states. -/
theorem C2_counterexample :
    lsp_kind_attrs [] =
      Except.ok { numberRepr := false, renameAllCamelCase := true, untagged := false } ∧
    decodeBooleanOrOptions (T := Unit)
        { numberRepr := false, renameAllCamelCase := true, untagged := false }
        (fun j => match j with
          | Json.obj [] => Except.ok ()
          | _ => Except.error "expected options object")
        (Json.bool true) = Except.error "expected externally tagged enum" ∧
    (Except.error "expected externally tagged enum" :
        Except String (BooleanOrOptions Unit)) ≠
      Except.ok (BooleanOrOptions.Boolean true) ∧
    decodeBooleanOrOptionsUntagged (T := Unit)
        (fun j => match j with
          | Json.obj [] => Except.ok ()
          | _ => Except.error "expected options object")
        (Json.bool true) = Except.ok (BooleanOrOptions.Boolean true) :=
  ⟨rfl, rfl, fun h => Except.noConfusion h, rfl⟩

/-- C2 (amended): for a sum type without a `number` marker whose variants
carry data, the emitted attributes produce serde's externally tagged
deserializer with camelCase variant keys, not an untagged one: decoding a
one-entry map keyed `boolean` yields `Boolean`, one keyed `options` defers
to the content type, and a bare boolean literal (or any non-map) fails;
there is no declaration-order first-success dispatch. -/
theorem C2_external_tagging {T : Type} (decT : Json → Except String T) (b : Bool)
    (v : Json) (a : KindAttrs) (ha : lsp_kind_attrs [] = Except.ok a) :
    decodeBooleanOrOptions a decT (Json.obj [("boolean", Json.bool b)]) =
      Except.ok (BooleanOrOptions.Boolean b) ∧
    decodeBooleanOrOptions a decT (Json.obj [("options", v)]) =
      (decT v).map BooleanOrOptions.Options ∧
    decodeBooleanOrOptions a decT (Json.bool b) =
      Except.error "expected externally tagged enum" ∧
    a.untagged = false := by
  have hae : a = { numberRepr := false, renameAllCamelCase := true, untagged := false } := by
    simp only [lsp_kind_attrs, lspKindLoop, Except.ok.injEq] at ha
    exact ha.symm
  subst hae
  exact ⟨rfl, rfl, rfl, rfl⟩

/-- C2 witness: the externally tagged decoding evaluated at concrete
inputs. -/
theorem C2_external_tagging_witness :
    decodeBooleanOrOptions { numberRepr := false, renameAllCamelCase := true, untagged := false }
        (fun _ => (Except.error "no" : Except String Unit))
        (Json.obj [("boolean", Json.bool true)]) =
      Except.ok (BooleanOrOptions.Boolean true) :=
  (C2_external_tagging (fun _ => (Except.error "no" : Except String Unit)) true
    Json.null _ rfl).1

end LspMsg
